import Mathlib

deriving instance DecidableEq for Except

/-!
A shallow embedding of the medconnect inventory-and-request reconciliation
core: the Medicine/Request data model, the request lifecycle routes
(create / accept / reject / cancel / complete / fail) of the main route file,
and the browse listing pipeline (display-status derivation and distance sort).
All definitions are transcribed from the JavaScript source; quantities and
timestamps are modelled as integers, distances as rationals.
-/

namespace MedConnect

/-- Request lifecycle statuses occurring anywhere in the routes.  The
persistence schema (`requestSchema.status.enum`) deliberately lists only a
subset of these; see `requestStatusEnum`. -/
inductive RStatus where
  | pending
  | accepted
  | rejected
  | completed
  | cancelled
  | failed
deriving DecidableEq, Repr

/-- The `enum` list of `requestSchema.status` in the Request model:
`['Pending', 'Accepted', 'Rejected', 'Completed', 'Cancelled']`.
Note that `'Failed'` is absent. -/
def requestStatusEnum : List RStatus :=
  [.pending, .accepted, .rejected, .completed, .cancelled]

/-- Medicine statuses from `medicineSchema.status.enum`:
`['Available', 'Requested', 'Stock Finished', 'Donated', 'Expired']`. -/
inductive MStatus where
  | available
  | requested
  | stockFinished
  | donated
  | expired
deriving DecidableEq, Repr

/-- A Request document (fields used by the reconciliation core). -/
structure Req where
  id : Nat
  requester : Nat
  donor : Nat
  quantity : Int
  message : String
  status : RStatus
  donorResponse : Option String
deriving DecidableEq, Repr

/-- A Medicine document (fields used by the reconciliation core).
`expiry` is a timestamp; comparisons `new Date(expiry) <= new Date()`
become `expiry ≤ now`. -/
structure Med where
  quantity : Int
  expiry : Int
  donor : Nat
  status : MStatus
deriving DecidableEq, Repr

/-- Database state restricted to a single medicine and the requests that
reference it. -/
structure St where
  med : Med
  reqs : List Req
deriving DecidableEq, Repr

/-- The distinct error responses returned by the routes. -/
inductive Err where
  | notFound
  | unauthorized
  | noQuantity            -- "No quantity available for this medicine"
  | expired               -- "This medicine has expired"
  | selfRequest           -- "You cannot request your own medicine"
  | duplicate             -- "You already have a pending request for this medicine"
  | insufficientQuantity  -- "Only X units available. You requested Y."
  | nonPositive           -- "Requested quantity must be greater than 0"
  | invalidTransition     -- "Only pending requests can be cancelled"
  | validationError       -- mongoose schema validation failure (surfaces as HTTP 500)
deriving DecidableEq, Repr

/-- The query condition `status: { $in: ['Pending', 'Accepted'] }` — the query selecting
non-terminal requests. -/
def nonTerminal (r : Req) : Bool :=
  r.status == .pending || r.status == .accepted

/-- The aggregation `pendingRequests.reduce((sum, req) => sum + req.quantity, 0)` over
the non-terminal requests of the medicine. -/
def totalRequestedQuantity (reqs : List Req) : Int :=
  ((reqs.filter nonTerminal).map Req.quantity).foldl (· + ·) 0

/-- The clamp `Math.max(0, medicine.quantity - totalRequestedQuantity)`. -/
def remainingQuantity (m : Med) (reqs : List Req) : Int :=
  max 0 (m.quantity - totalRequestedQuantity reqs)

/-- Persisting a request: `request.save()` with mongoose validating the
document against the schema: a status outside `requestStatusEnum` or a
quantity below the schema's `min: 1` makes the save throw a
`ValidationError` and leaves the stored document unchanged. -/
def saveRequest (r : Req) : Except Err Req :=
  if requestStatusEnum.contains r.status && decide (1 ≤ r.quantity) then .ok r
  else .error .validationError

/-- Persisting a medicine: `medicine.save()` with mongoose validating the
document: `medicineSchema.quantity` has `min: 1`, so writing a quantity
below 1 throws a `ValidationError` and the stored document is unchanged. -/
def saveMedicine (m : Med) : Except Err Med :=
  if 1 ≤ m.quantity then .ok m else .error .validationError

/-- Replace (by id) a request document with its saved update. -/
def replaceReq (reqs : List Req) (rid : Nat) (r' : Req) : List Req :=
  reqs.map (fun x => if x.id == rid then r' else x)

/-- The observable effect of one route invocation: the database state after
the handler returns, and the HTTP answer (`none` for a success response,
`some e` for an error response).  Because the routes persist the request
before the medicine, a throwing `medicine.save()` yields an error response
together with a partially written database. -/
structure OpOutcome where
  db : St
  resp : Option Err
deriving DecidableEq, Repr

/-- Route `POST /request-medicine/:medicineId` (main route file).  Guard
order as in the source: remaining-quantity-zero, expiry, self-request,
duplicate, `quantity || 1` defaulting, over-allocation, non-positive.  On
success a `Pending` request is saved and then the medicine status is
recomputed and saved; if that second save throws, the request is already
persisted (partial write) and the route answers 500. -/
def createRequestOp (s : St) (requesterId : Nat) (quantity : Int)
    (message : String) (now : Int) : OpOutcome :=
  let medicine := s.med
  let totalRequested := totalRequestedQuantity s.reqs
  let remaining := max 0 (medicine.quantity - totalRequested)
  if remaining == 0 then ⟨s, some .noQuantity⟩
  else if medicine.expiry ≤ now then ⟨s, some .expired⟩
  else if medicine.donor == requesterId then ⟨s, some .selfRequest⟩
  else if s.reqs.any (fun r => r.requester == requesterId && nonTerminal r) then
    ⟨s, some .duplicate⟩
  else
    -- const requestedQuantity = quantity || 1;  (0 is falsy in JS)
    let requestedQuantity := if quantity == 0 then 1 else quantity
    if requestedQuantity > remaining then ⟨s, some .insufficientQuantity⟩
    else if requestedQuantity ≤ 0 then ⟨s, some .nonPositive⟩
    else
      let newId := (s.reqs.map Req.id).foldl max 0 + 1
      let request : Req :=
        { id := newId, requester := requesterId, donor := medicine.donor,
          quantity := requestedQuantity, message := message,
          status := .pending, donorResponse := none }
      match saveRequest request with
      | .error e => ⟨s, some e⟩
      | .ok _ =>
        let newTotal := totalRequested + requestedQuantity
        let newStatus :=
          if newTotal ≥ medicine.quantity then MStatus.stockFinished
          else if newTotal > 0 then MStatus.requested
          else medicine.status
        match saveMedicine { medicine with status := newStatus } with
        | .error e => ⟨{ med := medicine, reqs := s.reqs ++ [request] }, some e⟩
        | .ok med' => ⟨{ med := med', reqs := s.reqs ++ [request] }, none⟩

/-- Route `POST /api/requests/:requestId/accept` (main route file).  After
the donor check the request is unconditionally saved as `Accepted` (there is
no check of the current status and no quantity-sufficiency check); then the
medicine is saved with `Math.max(0, medicine.quantity - request.quantity)`.
When that clamp yields 0, the `min: 1` validator makes `medicine.save()`
throw: the route answers 500 while the request stays persisted as
`Accepted` and the quantity stays undecremented — a partial write. -/
def acceptRequestOp (s : St) (requestId userId : Nat) (message : String) :
    OpOutcome :=
  match s.reqs.find? (fun r => r.id == requestId) with
  | none => ⟨s, some .notFound⟩
  | some request =>
    if request.donor ≠ userId then ⟨s, some .unauthorized⟩
    else
      let request' := { request with
        status := .accepted,
        donorResponse := some (if message == "" then "Request accepted" else message) }
      match saveRequest request' with
      | .error e => ⟨s, some e⟩
      | .ok _ =>
        let reqs' := replaceReq s.reqs requestId request'
        let medicine := s.med
        let newQuantity := max 0 (medicine.quantity - request.quantity)
        let otherPending :=
          reqs'.filter (fun x => nonTerminal x && x.id != requestId)
        let newStatus :=
          if newQuantity == 0 then MStatus.stockFinished
          else if otherPending.length > 0 then MStatus.requested
          else MStatus.available
        match saveMedicine { medicine with quantity := newQuantity, status := newStatus } with
        | .error e => ⟨{ med := medicine, reqs := reqs' }, some e⟩
        | .ok med' => ⟨{ med := med', reqs := reqs' }, none⟩

/-- Route `POST /api/requests/:requestId/reject` (main route file).  The
request is saved as `Rejected` first; if it had been `Accepted` the medicine
is then saved with `medicine.quantity += request.quantity`.  A throwing
medicine save would leave the request rejected with the quantity unrestored. -/
def rejectRequestOp (s : St) (requestId userId : Nat) (message : String) :
    OpOutcome :=
  match s.reqs.find? (fun r => r.id == requestId) with
  | none => ⟨s, some .notFound⟩
  | some request =>
    if request.donor ≠ userId then ⟨s, some .unauthorized⟩
    else
      let wasAccepted := request.status == .accepted
      let request' := { request with
        status := .rejected,
        donorResponse := some (if message == "" then "Request rejected" else message) }
      match saveRequest request' with
      | .error e => ⟨s, some e⟩
      | .ok _ =>
        let reqs' := replaceReq s.reqs requestId request'
        if wasAccepted then
          let medicine := s.med
          let restored := medicine.quantity + request.quantity
          let otherPending :=
            reqs'.filter (fun x => nonTerminal x && x.id != requestId)
          let newStatus :=
            if otherPending.length > 0 then MStatus.requested
            else MStatus.available
          match saveMedicine { medicine with quantity := restored, status := newStatus } with
          | .error e => ⟨{ med := medicine, reqs := reqs' }, some e⟩
          | .ok med' => ⟨{ med := med', reqs := reqs' }, none⟩
        else ⟨{ med := s.med, reqs := reqs' }, none⟩

/-- Route `POST /requests/:requestId/cancel` (main route file): only the
requester may cancel, and only from `Pending`; afterwards a medicine stuck
in `Requested` is saved back to `Available`. -/
def cancelRequestOp (s : St) (requestId userId : Nat) : OpOutcome :=
  match s.reqs.find? (fun r => r.id == requestId && r.requester == userId) with
  | none => ⟨s, some .notFound⟩
  | some request =>
    if request.status ≠ .pending then ⟨s, some .invalidTransition⟩
    else
      let request' := { request with status := .cancelled }
      match saveRequest request' with
      | .error e => ⟨s, some e⟩
      | .ok _ =>
        let reqs' := replaceReq s.reqs requestId request'
        if s.med.status == .requested then
          match saveMedicine { s.med with status := MStatus.available } with
          | .error e => ⟨{ med := s.med, reqs := reqs' }, some e⟩
          | .ok med' => ⟨{ med := med', reqs := reqs' }, none⟩
        else ⟨{ med := s.med, reqs := reqs' }, none⟩

/-- Route `POST /api/requests/:requestId/complete` (main route file): saves
the request as `Completed` (no status precondition beyond the donor check,
no quantity change) and saves a recomputed medicine status when no other
`Accepted` request remains. -/
def completeRequestOp (s : St) (requestId userId : Nat) : OpOutcome :=
  match s.reqs.find? (fun r => r.id == requestId) with
  | none => ⟨s, some .notFound⟩
  | some request =>
    if request.donor ≠ userId then ⟨s, some .unauthorized⟩
    else
      let request' := { request with status := .completed }
      match saveRequest request' with
      | .error e => ⟨s, some e⟩
      | .ok _ =>
        let reqs' := replaceReq s.reqs requestId request'
        let otherAccepted :=
          reqs'.filter (fun x => x.status == .accepted && x.id != requestId)
        if otherAccepted.length == 0 then
          let pending := reqs'.filter (fun x => x.status == .pending)
          let newStatus :=
            if pending.length > 0 then MStatus.requested
            else if s.med.quantity > 0 then MStatus.available
            else MStatus.stockFinished
          match saveMedicine { s.med with status := newStatus } with
          | .error e => ⟨{ med := s.med, reqs := reqs' }, some e⟩
          | .ok med' => ⟨{ med := med', reqs := reqs' }, none⟩
        else ⟨{ med := s.med, reqs := reqs' }, none⟩

/-- Route `POST /api/requests/:requestId/failed` (main route file): attempts
to save `status = 'Failed'`.  `'Failed'` is not in the Request schema's
status enum, so the save throws; the route's catch block answers with a 500
and nothing is persisted (the quantity is never restored — the route
contains no quantity code at all). -/
def failRequestOp (s : St) (requestId userId : Nat) (reason : String) :
    OpOutcome :=
  match s.reqs.find? (fun r => r.id == requestId) with
  | none => ⟨s, some .notFound⟩
  | some request =>
    if request.donor ≠ userId then ⟨s, some .unauthorized⟩
    else
      let request' := { request with
        status := .failed,
        donorResponse := some (if reason == "" then "Donation failed" else reason) }
      match saveRequest request' with
      | .error _ => ⟨s, some .validationError⟩
      | .ok _ => ⟨{ med := s.med, reqs := replaceReq s.reqs requestId request' }, none⟩

/-- One client action against the core. -/
inductive Op where
  | create (requesterId : Nat) (quantity : Int) (message : String) (now : Int)
  | accept (requestId userId : Nat) (message : String)
  | reject (requestId userId : Nat) (message : String)
  | cancel (requestId userId : Nat)
  | complete (requestId userId : Nat)
  | fail (requestId userId : Nat) (reason : String)
deriving DecidableEq, Repr

/-- Dispatch an operation to its route. -/
def applyOp (s : St) : Op → OpOutcome
  | .create r q msg now => createRequestOp s r q msg now
  | .accept rid uid msg => acceptRequestOp s rid uid msg
  | .reject rid uid msg => rejectRequestOp s rid uid msg
  | .cancel rid uid => cancelRequestOp s rid uid
  | .complete rid uid => completeRequestOp s rid uid
  | .fail rid uid reason => failRequestOp s rid uid reason

/-- The persisted state after an operation (error responses may still have
persisted a partial write, as recorded in the outcome's `db`). -/
def step (s : St) (op : Op) : St :=
  (applyOp s op).db

/-- Run a sequence of operations. -/
def run (s : St) : List Op → St
  | [] => s
  | op :: ops => run (step s op) ops

/-- A freshly created medicine listing: original quantity `q0`, no requests. -/
def freshState (q0 : Int) (expiry : Int) (donor : Nat) : St :=
  { med := { quantity := q0, expiry := expiry, donor := donor, status := .available },
    reqs := [] }

/-- Predicate `acceptSafe s op` holds unless `op` is an accept aimed at a request that
is not currently `Pending` — the accept route never verifies this
precondition, so traces are classified by whether they respect it. -/
def acceptSafe (s : St) : Op → Bool
  | .accept rid _ _ => s.reqs.all (fun r => r.id != rid || r.status == .pending)
  | _ => true

/-- Every accept in the trace targets a request that is `Pending` at the
moment the accept executes. -/
def safeRun (s : St) : List Op → Bool
  | [] => true
  | op :: ops => acceptSafe s op && safeRun (step s op) ops

/-! ### Display status (GET /browse and GET /api/donations/:donationId) -/

/-- The display status computed inline in `GET /browse` (and, identically,
in `GET /api/donations/:donationId`): fetch the non-terminal requests,
aggregate their quantity, floor the difference at 0, then the if/else chain
expiry → stock → pending-interest → available. -/
def browseDisplayStatus (m : Med) (reqs : List Req) (now : Int) : MStatus :=
  let pendingRequests := reqs.filter nonTerminal
  let totalRequested := (pendingRequests.map Req.quantity).foldl (· + ·) 0
  let availableQuantity := max 0 (m.quantity - totalRequested)
  if m.expiry ≤ now then .expired
  else if availableQuantity == 0 then .stockFinished
  else if pendingRequests.length > 0 then .requested
  else .available

/-- Definition following the spec words: `deriveDisplayStatus(medicine, remaining, hasNonTerminalRequests)` as the
specification words it, for comparison with the code's computation. -/
def specDeriveDisplayStatus (expiry now remaining : Int)
    (hasNonTerminalRequests : Bool) : MStatus :=
  if expiry ≤ now then .expired
  else if remaining == 0 then .stockFinished
  else if hasNonTerminalRequests then .requested
  else .available

/-! ### Listing ranker (GET /browse, sort = 'distance') -/

/-- A browse listing together with its (possibly unresolved) computed
distance in km.  Geocoding failure yields `none`. -/
structure Listing where
  id : Nat
  distance : Option ℚ
deriving DecidableEq, Repr

/-- The effective sort key of `(a.distance || Infinity)`: in JavaScript both
`null` and `0` are falsy, so an unresolved distance AND a distance of exactly
zero are keyed as infinity; `none` here stands for infinity. -/
def distKey (l : Listing) : Option ℚ :=
  match l.distance with
  | none => none
  | some d => if d = 0 then none else some d

/-- Order on effective keys, with `none` as the top (infinite) element. -/
def keyLe : Option ℚ → Option ℚ → Bool
  | _, none => true
  | none, some _ => false
  | some x, some y => decide (x ≤ y)

/-- The comparator `(a, b) => (a.distance || Infinity) - (b.distance || Infinity)`
induces this total preorder; `Array.prototype.sort` is a stable sort under it. -/
def distLe (a b : Listing) : Prop := keyLe (distKey a) (distKey b) = true

instance : DecidableRel distLe := fun a b =>
  inferInstanceAs (Decidable (keyLe (distKey a) (distKey b) = true))

/-- Stable sort of the listings under the distance comparator
(`medicines.sort((a, b) => (a.distance || Infinity) - (b.distance || Infinity))`).
Insertion sort with a reflexive-total relation is stable, matching the
engine's stable sort. -/
def sortByDistance (ls : List Listing) : List Listing :=
  ls.insertionSort distLe

/-- The filter `medicines.filter(medicine => medicine.distance && medicine.distance <= maxDistance)`;
a radius of `none` models the "Any Distance" sentinel which skips filtering.
Note `0` is falsy, so a zero distance is filtered out as well. -/
def radiusFilter (radius : Option ℚ) (ls : List Listing) : List Listing :=
  match radius with
  | none => ls
  | some maxDistance =>
    ls.filter (fun l =>
      match l.distance with
      | none => false
      | some d => if d = 0 then false else decide (d ≤ maxDistance))

/-- The browse pipeline for the distance sort: radius filter, then sort,
then `medicines.slice(0, 20)`. -/
def browseDistancePipeline (radius : Option ℚ) (ls : List Listing) : List Listing :=
  (sortByDistance (radiusFilter radius ls)).take 20

/-- Resolved distances of a listing page, in page order. -/
def resolvedDistances (ls : List Listing) : List ℚ :=
  ls.filterMap Listing.distance

/-- Predicate `ascendingB l` holds when `l` is weakly increasing. -/
def ascendingB : List ℚ → Bool
  | [] => true
  | [_] => true
  | x :: y :: rest => decide (x ≤ y) && ascendingB (y :: rest)

/-- A Boolean rendering of the claimed output shape for the distance sort:
resolved distances appear in ascending order, and every unresolved-distance
listing comes after every resolved-distance one. -/
def distanceSortClaim (ls : List Listing) : Bool :=
  let out := browseDistancePipeline none ls
  ascendingB (resolvedDistances out) &&
    (out.dropWhile (fun l => l.distance.isSome)).all (fun l => l.distance.isNone)

/-! ### Aggregation helpers and list lemmas -/

/-- Contribution of one request to the pending aggregate. -/
def pendPart (r : Req) : Int := if r.status == .pending then r.quantity else 0

/-- Contribution of one request to the accepted aggregate. -/
def accPart (r : Req) : Int := if r.status == .accepted then r.quantity else 0

/-- Total quantity held by `Pending` requests. -/
def sumPend (reqs : List Req) : Int := (reqs.map pendPart).sum

/-- Total quantity held by `Accepted` requests. -/
def sumAcc (reqs : List Req) : Int := (reqs.map accPart).sum

/-- The inductive invariant maintained by the routes on sequences of
status-respecting operations: pending demand fits in the stored quantity,
the stored quantity satisfies the schema's `min: 1` validator, persisted
request quantities are positive (schema `min: 1`), and ids are unique. -/
structure Inv (s : St) : Prop where
  pend_le : sumPend s.reqs ≤ s.med.quantity
  qty_pos : 1 ≤ s.med.quantity
  req_pos : ∀ r ∈ s.reqs, 1 ≤ r.quantity
  ids_nodup : (s.reqs.map Req.id).Nodup

/-- The updated request document written by the accept route. -/
def acceptedVersion (r : Req) (message : String) : Req :=
  { r with status := .accepted,
           donorResponse := some (if message == "" then "Request accepted" else message) }

/-- The outcome of an accept that passed the existence, authorization and
request-save stages: if the clamped quantity is still at least 1 the
medicine save succeeds; otherwise the `min: 1` validator rejects it and the
route answers 500 with the request already persisted as `Accepted`. -/
def acceptOutcome (s : St) (requestId : Nat) (r : Req) (message : String) : OpOutcome :=
  let request' := acceptedVersion r message
  let reqs' := replaceReq s.reqs requestId request'
  let newQuantity := max 0 (s.med.quantity - r.quantity)
  let otherPending := reqs'.filter (fun x => nonTerminal x && x.id != requestId)
  let newStatus :=
    if newQuantity == 0 then MStatus.stockFinished
    else if otherPending.length > 0 then MStatus.requested
    else MStatus.available
  if 1 ≤ newQuantity then
    ⟨{ med := { s.med with quantity := newQuantity, status := newStatus }, reqs := reqs' },
      none⟩
  else ⟨{ med := s.med, reqs := reqs' }, some .validationError⟩

/-- The updated request document written by the reject route. -/
def rejectedVersion (r : Req) (message : String) : Req :=
  { r with status := .rejected,
           donorResponse := some (if message == "" then "Request rejected" else message) }

/-- The outcome of a reject that passed the existence, authorization and
request-save stages: a previously `Accepted` request restores the quantity
(subject to the medicine validator), any other source status leaves the
medicine untouched. -/
def rejectOutcome (s : St) (requestId : Nat) (r : Req) (message : String) : OpOutcome :=
  let request' := rejectedVersion r message
  let reqs' := replaceReq s.reqs requestId request'
  if r.status == .accepted then
    let restored := s.med.quantity + r.quantity
    let otherPending := reqs'.filter (fun x => nonTerminal x && x.id != requestId)
    let newStatus :=
      if otherPending.length > 0 then MStatus.requested else MStatus.available
    if 1 ≤ restored then
      ⟨{ med := { s.med with quantity := restored, status := newStatus }, reqs := reqs' },
        none⟩
    else ⟨{ med := s.med, reqs := reqs' }, some .validationError⟩
  else ⟨{ med := s.med, reqs := reqs' }, none⟩

/-- The outcome of a cancel that passed the existence, ownership, Pending
and request-save stages. -/
def cancelOutcome (s : St) (requestId : Nat) (r : Req) : OpOutcome :=
  let reqs' := replaceReq s.reqs requestId { r with status := .cancelled }
  if s.med.status == .requested then
    if 1 ≤ s.med.quantity then
      ⟨{ med := { s.med with status := MStatus.available }, reqs := reqs' }, none⟩
    else ⟨{ med := s.med, reqs := reqs' }, some .validationError⟩
  else ⟨{ med := s.med, reqs := reqs' }, none⟩

/-- The outcome of a complete that passed the existence, authorization and
request-save stages. -/
def completeOutcome (s : St) (requestId : Nat) (r : Req) : OpOutcome :=
  let reqs' := replaceReq s.reqs requestId { r with status := .completed }
  let otherAccepted := reqs'.filter (fun x => x.status == .accepted && x.id != requestId)
  if otherAccepted.length == 0 then
    let pending := reqs'.filter (fun x => x.status == .pending)
    let newStatus :=
      if pending.length > 0 then MStatus.requested
      else if s.med.quantity > 0 then MStatus.available
      else MStatus.stockFinished
    if 1 ≤ s.med.quantity then
      ⟨{ med := { s.med with status := newStatus }, reqs := reqs' }, none⟩
    else ⟨{ med := s.med, reqs := reqs' }, some .validationError⟩
  else ⟨{ med := s.med, reqs := reqs' }, none⟩

/-- The C5 scenario of the spec, which also witnesses several other claims:
a fresh medicine with quantity 10 and future expiry, donor 0; requester 1
creates a request for 6 units (id 1), which the donor then accepts
(10 − 6 = 4 ≥ 1, so the decrement persists). -/
def scenarioAccepted : St :=
  run (freshState 10 100 0) [.create 1 6 "" 0, .accept 1 0 ""]

/-- The state after requester 1 has created a pending request for 6 of 10
units (not yet accepted). -/
def scenarioPending : St := run (freshState 10 100 0) [.create 1 6 "" 0]

/-- A 10-unit medicine whose 2-unit request has been accepted (stored
quantity 8): a second accept on it really persists another decrement,
8 − 2 = 6 ≥ 1. -/
def scenarioSmallAccepted : St :=
  run (freshState 10 100 0) [.create 1 2 "" 0, .accept 1 0 ""]

/-- Requests for 6 and 3 units against a 10-unit medicine, the 6-unit one
accepted (stored quantity 4): accepting the still-pending 3-unit request
over-allocates relative to the remaining-excluding bound, yet persists. -/
def scenarioOversubscribed : St :=
  run (freshState 10 100 0) [.create 1 6 "" 0, .create 2 3 "" 0, .accept 1 0 ""]

/-- The quantity-inflation trace: a 5-unit medicine, a 5-unit request
accepted (the clamp to 0 makes the medicine save throw: partial write,
quantity stays 5, request Accepted), then rejected (restores 5 + 5 = 10),
then a 10-unit request created against the inflated stock. -/
def scenarioInflated : St :=
  run (freshState 5 100 0)
    [.create 1 5 "" 0, .accept 1 0 "", .reject 1 0 "", .create 2 10 "" 0]

/-- The value of `remainingQuantity` computed excluding one request, as the claim words
the accept precondition. -/
def remainingQuantityExcluding (s : St) (rid : Nat) : Int :=
  max 0 (s.med.quantity - totalRequestedQuantity (s.reqs.filter (fun x => x.id != rid)))

/-- An expired medicine (expiry 0) whose 5 units are fully held by a pending
request — the state for the C7 counterexample. -/
def scenarioExpiredFull : St :=
  { med := { quantity := 5, expiry := 0, donor := 0, status := .requested },
    reqs := [⟨1, 1, 0, 5, "", .pending, none⟩] }

/-- An expired medicine with no requests and positive remaining quantity. -/
def scenarioExpiredEmpty : St :=
  { med := { quantity := 5, expiry := 0, donor := 0, status := .available },
    reqs := [] }

instance : IsTotal Listing distLe where
  total a b := by
    unfold distLe
    cases hA : distKey a <;> cases hB : distKey b <;> simp [keyLe]
    exact le_total _ _

instance : IsTrans Listing distLe where
  trans a b c := by
    unfold distLe
    cases hA : distKey a <;> cases hB : distKey b <;> cases hC : distKey c <;>
      simp [keyLe]
    exact fun h1 h2 => le_trans h1 h2

/-- Every persisted request status lies in the schema's status enum. -/
def statusesValid (s : St) : Prop := ∀ r ∈ s.reqs, r.status ∈ requestStatusEnum

theorem foldl_add_eq (l : List Int) (a : Int) : l.foldl (· + ·) a = a + l.sum := by
  induction l generalizing a with
  | nil => simp
  | cons x xs ih => simp only [List.foldl_cons, List.sum_cons, ih]; ring

theorem totalRequestedQuantity_eq (reqs : List Req) :
    totalRequestedQuantity reqs = sumPend reqs + sumAcc reqs := by
  induction reqs with
  | nil => rfl
  | cons r rs ih =>
    simp only [totalRequestedQuantity, foldl_add_eq, zero_add] at ih ⊢
    simp only [sumPend, sumAcc, List.map_cons, List.sum_cons] at ih ⊢
    by_cases hp : r.status = .pending
    · simp [List.filter_cons, nonTerminal, pendPart, accPart, hp, ih]; ring
    · by_cases ha : r.status = .accepted
      · simp [List.filter_cons, nonTerminal, pendPart, accPart, hp, ha, ih]; ring
      · simp [List.filter_cons, nonTerminal, pendPart, accPart, hp, ha, ih]

theorem map_replaceReq_id (reqs : List Req) (rid : Nat) (r' : Req) (h : r'.id = rid) :
    (replaceReq reqs rid r').map Req.id = reqs.map Req.id := by
  unfold replaceReq
  rw [List.map_map]
  apply List.map_congr_left
  intro a _
  by_cases ha : a.id = rid <;> simp [Function.comp, ha, h]

theorem mem_replaceReq {reqs : List Req} {rid : Nat} {r' x : Req}
    (hx : x ∈ replaceReq reqs rid r') : x = r' ∨ x ∈ reqs := by
  simp only [replaceReq, List.mem_map] at hx
  obtain ⟨y, hy, heq⟩ := hx
  by_cases hid : y.id = rid
  · simp only [hid, beq_self_eq_true, if_true] at heq
    exact Or.inl heq.symm
  · simp only [beq_eq_false_iff_ne.mpr hid, Bool.false_eq_true, if_false] at heq
    exact Or.inr (heq ▸ hy)

theorem sum_map_replaceReq (g : Req → Int) (reqs : List Req) (rid : Nat) (r r' : Req)
    (hmem : r ∈ reqs) (hid : r.id = rid) (hnodup : (reqs.map Req.id).Nodup) :
    ((replaceReq reqs rid r').map g).sum = (reqs.map g).sum - g r + g r' := by
  induction reqs with
  | nil => cases hmem
  | cons x xs ih =>
    simp only [List.map_cons, List.nodup_cons] at hnodup
    obtain ⟨hx_nin, hnd⟩ := hnodup
    simp only [replaceReq, List.map_cons, List.sum_cons] at ih ⊢
    by_cases hx : x.id = rid
    · -- the head is the (unique) request with this id
      have hrx : r = x := by
        rcases List.mem_cons.mp hmem with h | h
        · exact h
        · exfalso
          apply hx_nin
          have hxr : x.id = r.id := by rw [hid, hx]
          rw [hxr]
          exact List.mem_map_of_mem Req.id h
      have htail : xs.map (fun y => if y.id == rid then r' else y) = xs := by
        conv_rhs => rw [← List.map_id xs]
        apply List.map_congr_left
        intro y hy
        have hyne : y.id ≠ rid := by
          intro hc
          apply hx_nin
          rw [hx, ← hc]
          exact List.mem_map_of_mem Req.id hy
        simp [hyne]
      rw [hrx]
      simp only [hx, beq_self_eq_true, if_true, htail]
      ring
    · have hrxs : r ∈ xs := by
        rcases List.mem_cons.mp hmem with h | h
        · exact absurd (h ▸ hid) hx
        · exact h
      have hxne : x.id ≠ rid := hx
      simp only [beq_eq_false_iff_ne.mpr hxne, Bool.false_eq_true, if_false]
      rw [ih hrxs hnd]
      ring

theorem sumPend_append (l1 l2 : List Req) :
    sumPend (l1 ++ l2) = sumPend l1 + sumPend l2 := by
  simp [sumPend]

theorem sumPend_singleton (r : Req) : sumPend [r] = pendPart r := by
  simp [sumPend]

theorem sumAcc_singleton (r : Req) : sumAcc [r] = accPart r := by
  simp [sumAcc]

theorem sumAcc_append (l1 l2 : List Req) :
    sumAcc (l1 ++ l2) = sumAcc l1 + sumAcc l2 := by
  simp [sumAcc]

theorem pendPart_nonneg {r : Req} (h : 1 ≤ r.quantity) : 0 ≤ pendPart r := by
  unfold pendPart; split <;> omega

theorem accPart_nonneg {r : Req} (h : 1 ≤ r.quantity) : 0 ≤ accPart r := by
  unfold accPart; split <;> omega

theorem sumPend_nonneg {reqs : List Req} (h : ∀ r ∈ reqs, 1 ≤ r.quantity) :
    0 ≤ sumPend reqs := by
  apply List.sum_nonneg
  intro x hx
  obtain ⟨r, hr, rfl⟩ := List.mem_map.mp hx
  exact pendPart_nonneg (h r hr)

theorem sumAcc_nonneg {reqs : List Req} (h : ∀ r ∈ reqs, 1 ≤ r.quantity) :
    0 ≤ sumAcc reqs := by
  apply List.sum_nonneg
  intro x hx
  obtain ⟨r, hr, rfl⟩ := List.mem_map.mp hx
  exact accPart_nonneg (h r hr)

theorem pendPart_le_sumPend {reqs : List Req} {r : Req}
    (h : ∀ x ∈ reqs, 1 ≤ x.quantity) (hr : r ∈ reqs) : pendPart r ≤ sumPend reqs := by
  apply List.single_le_sum
  · intro x hx
    obtain ⟨y, hy, rfl⟩ := List.mem_map.mp hx
    exact pendPart_nonneg (h y hy)
  · exact List.mem_map_of_mem pendPart hr

theorem le_foldl_max_init (l : List Nat) (a : Nat) : a ≤ l.foldl max a := by
  induction l generalizing a with
  | nil => simp
  | cons x xs ih => exact le_trans (le_max_left a x) (ih (max a x))

theorem le_foldl_max_mem (l : List Nat) (a : Nat) : ∀ x ∈ l, x ≤ l.foldl max a := by
  induction l generalizing a with
  | nil => intro x hx; cases hx
  | cons y ys ih =>
    intro x hx
    rcases hx with _ | hx
    · exact le_trans (le_max_right a y) (le_foldl_max_init ys (max a y))
    · exact ih (max a y) x (by assumption)

/-! ### The ledger invariant -/

theorem replaceReq_mem_self {reqs : List Req} {rid : Nat} {r : Req} (r' : Req)
    (hmem : r ∈ reqs) (hid : r.id = rid) : r' ∈ replaceReq reqs rid r' :=
  List.mem_map.mpr ⟨r, hmem, by simp [hid]⟩

theorem find?_replaceReq (reqs : List Req) (rid : Nat) (r' : Req) (h : r'.id = rid) :
    (replaceReq reqs rid r').find? (fun x => x.id == rid) =
      (reqs.find? (fun x => x.id == rid)).map (fun _ => r') := by
  induction reqs with
  | nil => rfl
  | cons x xs ih =>
    by_cases hx : x.id = rid
    · simp [replaceReq, hx, h]
    · simp only [replaceReq, List.map_cons, beq_eq_false_iff_ne.mpr hx,
        Bool.false_eq_true, if_false] at ih ⊢
      rw [List.find?_cons_of_neg _ (by simp [hx]), List.find?_cons_of_neg _ (by simp [hx])]
      exact ih

theorem totalRequestedQuantity_nonneg {reqs : List Req}
    (h : ∀ x ∈ reqs, 0 ≤ x.quantity) : 0 ≤ totalRequestedQuantity reqs := by
  unfold totalRequestedQuantity
  rw [foldl_add_eq, zero_add]
  apply List.sum_nonneg
  intro a ha
  obtain ⟨y, hy, rfl⟩ := List.mem_map.mp ha
  exact h y (List.mem_of_mem_filter hy)

theorem filter_length_pos_iff_any (reqs : List Req) :
    ((reqs.filter nonTerminal).length > 0) ↔ (reqs.any nonTerminal = true) := by
  rw [gt_iff_lt, List.any_eq_true, List.length_pos]
  constructor
  · intro h
    obtain ⟨x, hx⟩ := List.exists_mem_of_ne_nil _ h
    exact ⟨x, List.mem_of_mem_filter hx, List.of_mem_filter hx⟩
  · rintro ⟨x, hx, hpx⟩ hnil
    have hmem : x ∈ reqs.filter nonTerminal := List.mem_filter.mpr ⟨hx, hpx⟩
    rw [hnil] at hmem
    cases hmem

/-- C8: the display status computed inline by the browse and donation-detail
routes equals the spec's `deriveDisplayStatus` applied to the remaining
quantity and the presence of non-terminal requests, with the fixed tie-break
order: expiry, then zero stock, then pending interest, then available. -/
theorem C8_displayStatus_order (m : Med) (reqs : List Req) (now : Int) :
    browseDisplayStatus m reqs now =
      specDeriveDisplayStatus m.expiry now (remainingQuantity m reqs)
        (reqs.any nonTerminal) := by
  have hlen := filter_length_pos_iff_any reqs
  simp only [browseDisplayStatus, specDeriveDisplayStatus, remainingQuantity,
    totalRequestedQuantity]
  split_ifs <;> first
    | rfl
    | (exact absurd (hlen.mp (by assumption)) (by assumption))
    | (exact absurd (hlen.mpr (by assumption)) (by assumption))

/-- C9: FALSE as stated: with the comparator `(a.distance || Infinity)`, a
listing whose geocoded distance is exactly 0 km is keyed as infinity (0 is
falsy), so the output `[5 km, 0 km]` is not sorted by distance ascending. -/
theorem C9_counterexample :
    distanceSortClaim [⟨0, some 5⟩, ⟨1, some 0⟩] = false ∧
    browseDistancePipeline none [⟨0, some 5⟩, ⟨1, some 0⟩] =
      [⟨0, some 5⟩, ⟨1, some 0⟩] := by
  decide

/-- C9 (amended): the distance-sorted browse page is produced by filtering
the full candidate set by the radius, stably sorting it under the key that
maps an unresolved OR zero distance to infinity, and only then truncating to
20 listings: the page has at most 20 entries, is sorted under that key
(positive resolved distances ascending, zero/unresolved last), and every
entry comes from the radius-filtered candidate set, which is fully sorted
before truncation. -/
theorem C9_amended_sort (radius : Option ℚ) (ls : List Listing) :
    (browseDistancePipeline radius ls).length ≤ 20 ∧
    List.Sorted distLe (browseDistancePipeline radius ls) ∧
    List.Perm (sortByDistance (radiusFilter radius ls)) (radiusFilter radius ls) ∧
    ∀ x ∈ browseDistancePipeline radius ls, x ∈ radiusFilter radius ls := by
  refine ⟨List.length_take_le _ _, ?_, List.perm_insertionSort distLe _, ?_⟩
  · exact List.Pairwise.sublist (List.take_sublist _ _)
      (List.sorted_insertionSort distLe _)
  · intro x hx
    exact (List.perm_insertionSort distLe _).subset
      ((List.take_sublist 20 _).subset hx)

theorem saveRequest_ok (r : Req) (h1 : r.status ≠ .failed) (h2 : 1 ≤ r.quantity) :
    saveRequest r = .ok r := by
  unfold saveRequest
  rw [if_pos]
  rw [Bool.and_eq_true]
  refine ⟨?_, by simpa using h2⟩
  unfold requestStatusEnum
  cases hs : r.status <;> simp_all

theorem saveRequest_failed (r : Req) (h : r.status = .failed) :
    saveRequest r = .error .validationError := by
  unfold saveRequest requestStatusEnum
  simp [h]

theorem saveRequest_error_eq {r : Req} {e : Err} (h : saveRequest r = .error e) :
    e = .validationError := by
  unfold saveRequest at h
  split at h
  · cases h
  · injection h with h
    exact h.symm

theorem saveMedicine_ok (m : Med) (h : 1 ≤ m.quantity) : saveMedicine m = .ok m := by
  unfold saveMedicine
  rw [if_pos h]

theorem saveMedicine_invalid (m : Med) (h : ¬ 1 ≤ m.quantity) :
    saveMedicine m = .error .validationError := by
  unfold saveMedicine
  rw [if_neg h]

theorem saveMedicine_error_eq {m : Med} {e : Err} (h : saveMedicine m = .error e) :
    e = .validationError := by
  unfold saveMedicine at h
  split at h
  · cases h
  · injection h with h
    exact h.symm

theorem acceptRequestOp_eq {s : St} {rid uid : Nat} {msg : String} {r : Req}
    (hfind : s.reqs.find? (fun x => x.id == rid) = some r)
    (hdon : r.donor = uid) (hq1 : 1 ≤ r.quantity) :
    acceptRequestOp s rid uid msg = acceptOutcome s rid r msg := by
  simp only [acceptRequestOp, hfind]
  rw [if_neg (by simp [hdon])]
  rw [saveRequest_ok _ (by simp) (by simpa using hq1)]
  simp only [acceptOutcome, acceptedVersion]
  by_cases hq : 1 ≤ max 0 (s.med.quantity - r.quantity)
  · rw [saveMedicine_ok _ hq, if_pos hq]
  · rw [saveMedicine_invalid _ hq, if_neg hq]

theorem rejectRequestOp_eq {s : St} {rid uid : Nat} {msg : String} {r : Req}
    (hfind : s.reqs.find? (fun x => x.id == rid) = some r)
    (hdon : r.donor = uid) (hq1 : 1 ≤ r.quantity) :
    rejectRequestOp s rid uid msg = rejectOutcome s rid r msg := by
  simp only [rejectRequestOp, hfind]
  rw [if_neg (by simp [hdon])]
  rw [saveRequest_ok _ (by simp) (by simpa using hq1)]
  simp only [rejectOutcome, rejectedVersion]
  split
  · by_cases hrest : 1 ≤ s.med.quantity + r.quantity
    · rw [saveMedicine_ok _ hrest, if_pos hrest]
    · rw [saveMedicine_invalid _ hrest, if_neg hrest]
  · rfl

theorem cancelRequestOp_eq {s : St} {rid uid : Nat} {r : Req}
    (hfind : s.reqs.find? (fun x => x.id == rid && x.requester == uid) = some r)
    (hpend : r.status = .pending) (hq1 : 1 ≤ r.quantity) :
    cancelRequestOp s rid uid = cancelOutcome s rid r := by
  simp only [cancelRequestOp, hfind]
  rw [if_neg (by simp [hpend])]
  rw [saveRequest_ok _ (by simp) (by simpa using hq1)]
  simp only [cancelOutcome]
  split
  · by_cases hq : 1 ≤ s.med.quantity
    · rw [saveMedicine_ok _ (by exact hq), if_pos hq]
    · rw [saveMedicine_invalid _ (by exact hq), if_neg hq]
  · rfl

theorem completeRequestOp_eq {s : St} {rid uid : Nat} {r : Req}
    (hfind : s.reqs.find? (fun x => x.id == rid) = some r)
    (hdon : r.donor = uid) (hq1 : 1 ≤ r.quantity) :
    completeRequestOp s rid uid = completeOutcome s rid r := by
  simp only [completeRequestOp, hfind]
  rw [if_neg (by simp [hdon])]
  rw [saveRequest_ok _ (by simp) (by simpa using hq1)]
  simp only [completeOutcome]
  split
  · by_cases hq : 1 ≤ s.med.quantity
    · rw [saveMedicine_ok _ (by exact hq), if_pos hq]
    · rw [saveMedicine_invalid _ (by exact hq), if_neg hq]
  · rfl

theorem failRequestOp_db (s : St) (rid uid : Nat) (reason : String) :
    (failRequestOp s rid uid reason).db = s := by
  cases hfind : s.reqs.find? (fun x => x.id == rid) with
  | none => simp [failRequestOp, hfind]
  | some r =>
    by_cases hdon : r.donor ≠ uid
    · simp [failRequestOp, hfind, hdon]
    · simp only [failRequestOp, hfind, if_neg hdon]
      rw [saveRequest_failed _ (by simp)]

theorem failRequestOp_isError (s : St) (rid uid : Nat) (reason : String) :
    ∃ e, (failRequestOp s rid uid reason).resp = some e := by
  cases hfind : s.reqs.find? (fun x => x.id == rid) with
  | none => exact ⟨.notFound, by simp [failRequestOp, hfind]⟩
  | some r =>
    by_cases hdon : r.donor ≠ uid
    · exact ⟨.unauthorized, by simp [failRequestOp, hfind, hdon]⟩
    · refine ⟨.validationError, ?_⟩
      simp only [failRequestOp, hfind, if_neg hdon]
      rw [saveRequest_failed _ (by simp)]

theorem step_fail_id (s : St) (rid uid : Nat) (reason : String) :
    step s (.fail rid uid reason) = s :=
  failRequestOp_db s rid uid reason

theorem accept_persists {s : St} {rid uid : Nat} {msg : String} {r : Req}
    (hfind : s.reqs.find? (fun x => x.id == rid) = some r)
    (hdon : r.donor = uid) (hq1 : 1 ≤ r.quantity)
    (hlt : r.quantity < s.med.quantity) :
    (acceptRequestOp s rid uid msg).resp = none ∧
    (acceptRequestOp s rid uid msg).db.med.quantity = s.med.quantity - r.quantity ∧
    (acceptRequestOp s rid uid msg).db.reqs =
      replaceReq s.reqs rid (acceptedVersion r msg) := by
  have hmax : max 0 (s.med.quantity - r.quantity) = s.med.quantity - r.quantity :=
    max_eq_right (by omega)
  have hge1 : 1 ≤ max 0 (s.med.quantity - r.quantity) := by rw [hmax]; omega
  rw [acceptRequestOp_eq hfind hdon hq1]
  simp only [acceptOutcome]
  rw [if_pos hge1]
  exact ⟨rfl, hmax, rfl⟩

theorem accept_clamped {s : St} {rid uid : Nat} {msg : String} {r : Req}
    (hfind : s.reqs.find? (fun x => x.id == rid) = some r)
    (hdon : r.donor = uid) (hq1 : 1 ≤ r.quantity)
    (hge : s.med.quantity ≤ r.quantity) :
    (acceptRequestOp s rid uid msg).resp = some .validationError ∧
    (acceptRequestOp s rid uid msg).db.med.quantity = s.med.quantity ∧
    (acceptRequestOp s rid uid msg).db.reqs =
      replaceReq s.reqs rid (acceptedVersion r msg) := by
  have hng : ¬ 1 ≤ max 0 (s.med.quantity - r.quantity) := by
    rw [max_eq_left (by omega)]
    omega
  rw [acceptRequestOp_eq hfind hdon hq1]
  simp only [acceptOutcome]
  rw [if_neg hng]
  exact ⟨rfl, rfl, rfl⟩

theorem reject_restores {t : St} {rid uid : Nat} {m2 : String} {r' : Req}
    (hfind : t.reqs.find? (fun x => x.id == rid) = some r')
    (hdon : r'.donor = uid) (hq1 : 1 ≤ r'.quantity) (hacc : r'.status = .accepted)
    (hrest : 1 ≤ t.med.quantity + r'.quantity) :
    (rejectRequestOp t rid uid m2).resp = none ∧
    (rejectRequestOp t rid uid m2).db.med.quantity = t.med.quantity + r'.quantity := by
  rw [rejectRequestOp_eq hfind hdon hq1]
  simp only [rejectOutcome]
  rw [if_pos (by simp [hacc])]
  rw [if_pos hrest]
  exact ⟨rfl, rfl⟩

theorem inv_create {s : St} (rq : Nat) (q : Int) (msg : String) (now : Int)
    (hinv : Inv s) : Inv (createRequestOp s rq q msg now).db := by
  simp only [createRequestOp]
  set rqty : Int := (if (q == 0) = true then 1 else q) with hrq
  split
  · exact hinv
  rename_i hrem0
  split
  · exact hinv
  rename_i hexp
  split
  · exact hinv
  rename_i hself
  split
  · exact hinv
  rename_i hdup
  split
  · exact hinv
  rename_i hbig
  split
  · exact hinv
  rename_i hpos
  -- successful guards: derive the arithmetic facts
  have hrem : 0 < s.med.quantity - totalRequestedQuantity s.reqs := by
    rcases le_or_lt (s.med.quantity - totalRequestedQuantity s.reqs) 0 with h | h
    · exact absurd (by simpa using max_eq_left h) (by simpa using hrem0)
    · exact h
  have hmax : max 0 (s.med.quantity - totalRequestedQuantity s.reqs) =
      s.med.quantity - totalRequestedQuantity s.reqs := max_eq_right hrem.le
  have hle : rqty ≤ s.med.quantity - totalRequestedQuantity s.reqs := by
    rw [hmax] at hbig
    omega
  have hq1 : 1 ≤ rqty := by omega
  have hacc0 : 0 ≤ sumAcc s.reqs := sumAcc_nonneg hinv.req_pos
  have hpnd0 : 0 ≤ sumPend s.reqs := sumPend_nonneg hinv.req_pos
  have htot := totalRequestedQuantity_eq s.reqs
  have hpend := hinv.pend_le
  have hm1 : 1 ≤ s.med.quantity := by omega
  rw [saveRequest_ok _ (by simp) (by simpa using hq1)]
  rw [saveMedicine_ok _ (by simpa using hm1)]
  constructor
  · -- pending demand still fits in the unchanged quantity
    dsimp only
    rw [sumPend_append, sumPend_singleton]
    simp [pendPart]
    omega
  · exact hm1
  · intro r hr
    rcases List.mem_append.mp hr with h | h
    · exact hinv.req_pos r h
    · simp only [List.mem_singleton] at h
      subst h
      exact hq1
  · dsimp only
    simp only [List.map_append, List.map_cons, List.map_nil]
    rw [List.nodup_append]
    refine ⟨hinv.ids_nodup, List.nodup_singleton _, ?_⟩
    intro a ha hb
    simp only [List.mem_singleton] at hb
    subst hb
    have := le_foldl_max_mem (s.reqs.map Req.id) 0 _ ha
    omega

theorem inv_accept {s : St} (rid uid : Nat) (msg : String)
    (hinv : Inv s)
    (hsafe : (s.reqs.all fun r => r.id != rid || r.status == .pending) = true) :
    Inv (acceptRequestOp s rid uid msg).db := by
  cases hfind : s.reqs.find? (fun r => r.id == rid) with
  | none => simpa [acceptRequestOp, hfind] using hinv
  | some r =>
    by_cases hdon : r.donor ≠ uid
    · simpa [acceptRequestOp, hfind, hdon] using hinv
    · have hmem : r ∈ s.reqs := List.mem_of_find?_eq_some hfind
      have hid : r.id = rid := by simpa using List.find?_some hfind
      have hq1 : 1 ≤ r.quantity := hinv.req_pos r hmem
      have hpendr : r.status = .pending := by
        have h1 := List.all_eq_true.mp hsafe r hmem
        rcases Bool.or_eq_true_iff.mp h1 with h | h
        · exact absurd hid (by simpa using h)
        · simpa using h
      have hqle : r.quantity ≤ sumPend s.reqs := by
        have h2 := pendPart_le_sumPend hinv.req_pos hmem
        unfold pendPart at h2
        rw [hpendr] at h2
        simpa using h2
      have hpend := hinv.pend_le
      have hqpos := hinv.qty_pos
      have hsp : sumPend (replaceReq s.reqs rid (acceptedVersion r msg)) =
          sumPend s.reqs - r.quantity := by
        have h3 := sum_map_replaceReq pendPart s.reqs rid r (acceptedVersion r msg)
          hmem hid hinv.ids_nodup
        simp only [sumPend] at *
        rw [h3]
        simp [pendPart, acceptedVersion, hpendr]
      have hreqpos : ∀ x ∈ replaceReq s.reqs rid (acceptedVersion r msg), 1 ≤ x.quantity := by
        intro x hx
        rcases mem_replaceReq hx with h | h
        · rw [h]
          simpa [acceptedVersion] using hq1
        · exact hinv.req_pos x h
      have hnodup : ((replaceReq s.reqs rid (acceptedVersion r msg)).map Req.id).Nodup := by
        rw [map_replaceReq_id _ _ _ (by simp [acceptedVersion, hid])]
        exact hinv.ids_nodup
      rw [acceptRequestOp_eq hfind (not_ne_iff.mp hdon) hq1]
      simp only [acceptOutcome]
      split
      · rename_i hq
        refine ⟨?_, by exact hq, hreqpos, hnodup⟩
        show sumPend (replaceReq s.reqs rid (acceptedVersion r msg)) ≤
          max 0 (s.med.quantity - r.quantity)
        rw [hsp, max_eq_right (by omega)]
        omega
      · refine ⟨?_, hqpos, hreqpos, hnodup⟩
        show sumPend (replaceReq s.reqs rid (acceptedVersion r msg)) ≤ s.med.quantity
        rw [hsp]
        omega

theorem inv_reject {s : St} (rid uid : Nat) (msg : String)
    (hinv : Inv s) : Inv (rejectRequestOp s rid uid msg).db := by
  cases hfind : s.reqs.find? (fun r => r.id == rid) with
  | none => simpa [rejectRequestOp, hfind] using hinv
  | some r =>
    by_cases hdon : r.donor ≠ uid
    · simpa [rejectRequestOp, hfind, hdon] using hinv
    · have hmem : r ∈ s.reqs := List.mem_of_find?_eq_some hfind
      have hid : r.id = rid := by simpa using List.find?_some hfind
      have hq1 : 1 ≤ r.quantity := hinv.req_pos r hmem
      have hpend := hinv.pend_le
      have hqpos := hinv.qty_pos
      have hppos : 0 ≤ pendPart r := pendPart_nonneg hq1
      have hsp : sumPend (replaceReq s.reqs rid (rejectedVersion r msg)) =
          sumPend s.reqs - pendPart r := by
        have h3 := sum_map_replaceReq pendPart s.reqs rid r (rejectedVersion r msg)
          hmem hid hinv.ids_nodup
        simp only [sumPend] at *
        rw [h3]
        simp [pendPart, rejectedVersion]
      have hreqpos : ∀ x ∈ replaceReq s.reqs rid (rejectedVersion r msg), 1 ≤ x.quantity := by
        intro x hx
        rcases mem_replaceReq hx with h | h
        · rw [h]
          simpa [rejectedVersion] using hq1
        · exact hinv.req_pos x h
      have hnodup : ((replaceReq s.reqs rid (rejectedVersion r msg)).map Req.id).Nodup := by
        rw [map_replaceReq_id _ _ _ (by simp [rejectedVersion, hid])]
        exact hinv.ids_nodup
      rw [rejectRequestOp_eq hfind (not_ne_iff.mp hdon) hq1]
      simp only [rejectOutcome]
      split
      · split
        · rename_i hacc hrest
          refine ⟨?_, by exact hrest, hreqpos, hnodup⟩
          show sumPend (replaceReq s.reqs rid (rejectedVersion r msg)) ≤
            s.med.quantity + r.quantity
          rw [hsp]
          omega
        · refine ⟨?_, hqpos, hreqpos, hnodup⟩
          show sumPend (replaceReq s.reqs rid (rejectedVersion r msg)) ≤ s.med.quantity
          rw [hsp]
          omega
      · refine ⟨?_, hqpos, hreqpos, hnodup⟩
        show sumPend (replaceReq s.reqs rid (rejectedVersion r msg)) ≤ s.med.quantity
        rw [hsp]
        omega

theorem inv_cancel {s : St} (rid uid : Nat) (hinv : Inv s) :
    Inv (cancelRequestOp s rid uid).db := by
  cases hfind : s.reqs.find? (fun r => r.id == rid && r.requester == uid) with
  | none => simpa [cancelRequestOp, hfind] using hinv
  | some r =>
    by_cases hpendr : r.status ≠ .pending
    · simpa [cancelRequestOp, hfind, hpendr] using hinv
    · have hmem : r ∈ s.reqs := List.mem_of_find?_eq_some hfind
      have hid : r.id = rid := by
        have h1 := List.find?_some hfind
        simp only [Bool.and_eq_true, beq_iff_eq] at h1
        exact h1.1
      have hpendr' : r.status = .pending := not_ne_iff.mp hpendr
      have hq1 : 1 ≤ r.quantity := hinv.req_pos r hmem
      have hpend := hinv.pend_le
      have hqpos := hinv.qty_pos
      have hsp : sumPend (replaceReq s.reqs rid { r with status := RStatus.cancelled }) =
          sumPend s.reqs - r.quantity := by
        have h3 := sum_map_replaceReq pendPart s.reqs rid r { r with status := .cancelled }
          hmem hid hinv.ids_nodup
        simp only [sumPend] at *
        rw [h3]
        simp [pendPart, hpendr']
      have hreqpos : ∀ x ∈ replaceReq s.reqs rid { r with status := RStatus.cancelled },
          1 ≤ x.quantity := by
        intro x hx
        rcases mem_replaceReq hx with h | h
        · rw [h]
          simpa using hq1
        · exact hinv.req_pos x h
      have hnodup : ((replaceReq s.reqs rid
          { r with status := RStatus.cancelled }).map Req.id).Nodup := by
        rw [map_replaceReq_id _ _ _ (by simpa using hid)]
        exact hinv.ids_nodup
      have hdbq : (cancelOutcome s rid r).db.med.quantity = s.med.quantity := by
        simp only [cancelOutcome]
        split <;> rfl
      have hdbr : (cancelOutcome s rid r).db.reqs =
          replaceReq s.reqs rid { r with status := RStatus.cancelled } := by
        simp only [cancelOutcome]
        split <;> rfl
      rw [cancelRequestOp_eq hfind hpendr' hq1]
      refine ⟨?_, ?_, ?_, ?_⟩
      · rw [hdbr, hdbq, hsp]
        omega
      · rw [hdbq]
        exact hqpos
      · rw [hdbr]
        exact hreqpos
      · rw [hdbr]
        exact hnodup

theorem inv_complete {s : St} (rid uid : Nat) (hinv : Inv s) :
    Inv (completeRequestOp s rid uid).db := by
  cases hfind : s.reqs.find? (fun r => r.id == rid) with
  | none => simpa [completeRequestOp, hfind] using hinv
  | some r =>
    by_cases hdon : r.donor ≠ uid
    · simpa [completeRequestOp, hfind, hdon] using hinv
    · have hmem : r ∈ s.reqs := List.mem_of_find?_eq_some hfind
      have hid : r.id = rid := by simpa using List.find?_some hfind
      have hq1 : 1 ≤ r.quantity := hinv.req_pos r hmem
      have hpend := hinv.pend_le
      have hqpos := hinv.qty_pos
      have hppos : 0 ≤ pendPart r := pendPart_nonneg hq1
      have hsp : sumPend (replaceReq s.reqs rid { r with status := RStatus.completed }) =
          sumPend s.reqs - pendPart r := by
        have h3 := sum_map_replaceReq pendPart s.reqs rid r { r with status := .completed }
          hmem hid hinv.ids_nodup
        simp only [sumPend] at *
        rw [h3]
        simp [pendPart]
      have hreqpos : ∀ x ∈ replaceReq s.reqs rid { r with status := RStatus.completed },
          1 ≤ x.quantity := by
        intro x hx
        rcases mem_replaceReq hx with h | h
        · rw [h]
          simpa using hq1
        · exact hinv.req_pos x h
      have hnodup : ((replaceReq s.reqs rid
          { r with status := RStatus.completed }).map Req.id).Nodup := by
        rw [map_replaceReq_id _ _ _ (by simpa using hid)]
        exact hinv.ids_nodup
      have hdbq : (completeOutcome s rid r).db.med.quantity = s.med.quantity := by
        simp only [completeOutcome]
        split <;> rfl
      have hdbr : (completeOutcome s rid r).db.reqs =
          replaceReq s.reqs rid { r with status := RStatus.completed } := by
        simp only [completeOutcome]
        split <;> rfl
      rw [completeRequestOp_eq hfind (not_ne_iff.mp hdon) hq1]
      refine ⟨?_, ?_, ?_, ?_⟩
      · rw [hdbr, hdbq, hsp]
        omega
      · rw [hdbq]
        exact hqpos
      · rw [hdbr]
        exact hreqpos
      · rw [hdbr]
        exact hnodup

theorem inv_step {s : St} {op : Op}
    (hinv : Inv s) (hsafe : acceptSafe s op = true) : Inv (step s op) := by
  cases op with
  | create rq q msg now => exact inv_create rq q msg now hinv
  | accept rid uid msg =>
    exact inv_accept rid uid msg hinv (by simpa [acceptSafe] using hsafe)
  | reject rid uid msg => exact inv_reject rid uid msg hinv
  | cancel rid uid => exact inv_cancel rid uid hinv
  | complete rid uid => exact inv_complete rid uid hinv
  | fail rid uid reason =>
    rw [step_fail_id]
    exact hinv

theorem inv_run {s : St} {ops : List Op}
    (hinv : Inv s) (hsafe : safeRun s ops = true) : Inv (run s ops) := by
  induction ops generalizing s with
  | nil => exact hinv
  | cons op ops ih =>
    simp only [safeRun, Bool.and_eq_true] at hsafe
    exact ih (inv_step hinv hsafe.1) hsafe.2

theorem inv_fresh {q0 expiry : Int} {donor : Nat} (h : 1 ≤ q0) :
    Inv (freshState q0 expiry donor) := by
  refine ⟨?_, ?_, ?_, ?_⟩ <;> simp [freshState, sumPend, sumAcc]
  all_goals omega

theorem acceptRequestOp_resp_cases (s : St) (rid uid : Nat) (msg : String) :
    (acceptRequestOp s rid uid msg).resp = none ∨
    (acceptRequestOp s rid uid msg).resp = some .notFound ∨
    (acceptRequestOp s rid uid msg).resp = some .unauthorized ∨
    (acceptRequestOp s rid uid msg).resp = some .validationError := by
  unfold acceptRequestOp
  split
  · right; left; rfl
  · split
    · right; right; left; rfl
    · split
      all_goals dsimp only
      all_goals split
      case isTrue.h_1 e hsr =>
        right; right; right
        simp [saveRequest_error_eq hsr]
      case isFalse.h_1 e hsr =>
        right; right; right
        simp [saveRequest_error_eq hsr]
      all_goals split
      all_goals first
        | (left; rfl)
        | (rename_i e hsm
           right; right; right
           simp [saveMedicine_error_eq hsm])

set_option maxHeartbeats 1600000 in
theorem createRequestOp_db_reqs (s : St) (rq : Nat) (q : Int) (msg : String) (now : Int) :
    (createRequestOp s rq q msg now).db.reqs = s.reqs ∨
    ∃ nr : Req, nr.status = .pending ∧
      (createRequestOp s rq q msg now).db.reqs = s.reqs ++ [nr] := by
  unfold createRequestOp
  dsimp only
  split
  · left; rfl
  · split
    · left; rfl
    · split
      · left; rfl
      · split
        · left; rfl
        · try dsimp only
          split
          all_goals split
          all_goals try (left; rfl)
          all_goals split
          all_goals try (left; rfl)
          all_goals split
          all_goals try (left; rfl)
          all_goals split
          all_goals right
          all_goals refine ⟨_, ?_, rfl⟩
          all_goals rfl

theorem acceptRequestOp_db_reqs (s : St) (rid uid : Nat) (msg : String) :
    (acceptRequestOp s rid uid msg).db.reqs = s.reqs ∨
    ∃ r' : Req, r'.status = .accepted ∧
      (acceptRequestOp s rid uid msg).db.reqs = replaceReq s.reqs rid r' := by
  unfold acceptRequestOp
  iterate 14
    all_goals first
      | (left; rfl)
      | (right; refine ⟨_, ?_, rfl⟩; rfl)
      | split
      | dsimp only

theorem rejectRequestOp_db_reqs (s : St) (rid uid : Nat) (msg : String) :
    (rejectRequestOp s rid uid msg).db.reqs = s.reqs ∨
    ∃ r' : Req, r'.status = .rejected ∧
      (rejectRequestOp s rid uid msg).db.reqs = replaceReq s.reqs rid r' := by
  unfold rejectRequestOp
  iterate 14
    all_goals first
      | (left; rfl)
      | (right; refine ⟨_, ?_, rfl⟩; rfl)
      | split
      | dsimp only

theorem cancelRequestOp_db_reqs (s : St) (rid uid : Nat) :
    (cancelRequestOp s rid uid).db.reqs = s.reqs ∨
    ∃ r' : Req, r'.status = .cancelled ∧
      (cancelRequestOp s rid uid).db.reqs = replaceReq s.reqs rid r' := by
  unfold cancelRequestOp
  iterate 14
    all_goals first
      | (left; rfl)
      | (right; refine ⟨_, ?_, rfl⟩; rfl)
      | split
      | dsimp only

theorem completeRequestOp_db_reqs (s : St) (rid uid : Nat) :
    (completeRequestOp s rid uid).db.reqs = s.reqs ∨
    ∃ r' : Req, r'.status = .completed ∧
      (completeRequestOp s rid uid).db.reqs = replaceReq s.reqs rid r' := by
  unfold completeRequestOp
  iterate 14
    all_goals first
      | (left; rfl)
      | (right; refine ⟨_, ?_, rfl⟩; rfl)
      | split
      | dsimp only

theorem statusesValid_step {s : St} (op : Op) (h : statusesValid s) :
    statusesValid (step s op) := by
  cases op with
  | create rq q msg now =>
    intro r hr
    have hr' : r ∈ (createRequestOp s rq q msg now).db.reqs := hr
    rcases createRequestOp_db_reqs s rq q msg now with heq | ⟨nr, hnr, heq⟩
    · rw [heq] at hr'
      exact h r hr'
    · rw [heq] at hr'
      rcases List.mem_append.mp hr' with h1 | h1
      · exact h r h1
      · simp only [List.mem_singleton] at h1
        subst h1
        rw [hnr]
        decide
  | accept rid uid msg =>
    intro r hr
    have hr' : r ∈ (acceptRequestOp s rid uid msg).db.reqs := hr
    rcases acceptRequestOp_db_reqs s rid uid msg with heq | ⟨r', hst, heq⟩
    · rw [heq] at hr'
      exact h r hr'
    · rw [heq] at hr'
      rcases mem_replaceReq hr' with h1 | h1
      · rw [h1, hst]
        decide
      · exact h r h1
  | reject rid uid msg =>
    intro r hr
    have hr' : r ∈ (rejectRequestOp s rid uid msg).db.reqs := hr
    rcases rejectRequestOp_db_reqs s rid uid msg with heq | ⟨r', hst, heq⟩
    · rw [heq] at hr'
      exact h r hr'
    · rw [heq] at hr'
      rcases mem_replaceReq hr' with h1 | h1
      · rw [h1, hst]
        decide
      · exact h r h1
  | cancel rid uid =>
    intro r hr
    have hr' : r ∈ (cancelRequestOp s rid uid).db.reqs := hr
    rcases cancelRequestOp_db_reqs s rid uid with heq | ⟨r', hst, heq⟩
    · rw [heq] at hr'
      exact h r hr'
    · rw [heq] at hr'
      rcases mem_replaceReq hr' with h1 | h1
      · rw [h1, hst]
        decide
      · exact h r h1
  | complete rid uid =>
    intro r hr
    have hr' : r ∈ (completeRequestOp s rid uid).db.reqs := hr
    rcases completeRequestOp_db_reqs s rid uid with heq | ⟨r', hst, heq⟩
    · rw [heq] at hr'
      exact h r hr'
    · rw [heq] at hr'
      rcases mem_replaceReq hr' with h1 | h1
      · rw [h1, hst]
        decide
      · exact h r h1
  | fail rid uid reason =>
    rw [step_fail_id]
    exact h

/-- C1: the claimed invariant `Σ(quantity of Pending+Accepted requests) ≤
medicine.quantity` is FALSE, in two ways.  After the donor accepts a 6-unit
request against a 10-unit medicine the stored quantity is 4 while the
accepted request still holds 6.  Worse, the sum is not even bounded by the
ORIGINAL quantity: on a 5-unit medicine, accepting a 5-unit request clamps
the quantity write to 0, the `min: 1` validator rejects it (500, partial
write: request `Accepted`, quantity still 5), and a subsequent reject then
restores a decrement that never happened, inflating the stock to 10 — after
which a 10-unit request is accepted into the pending set. -/
theorem C1_counterexample :
    totalRequestedQuantity scenarioAccepted.reqs = 6 ∧
    scenarioAccepted.med.quantity = 4 ∧
    ¬ totalRequestedQuantity scenarioAccepted.reqs ≤ scenarioAccepted.med.quantity ∧
    safeRun (freshState 5 100 0)
      [.create 1 5 "" 0, .accept 1 0 "", .reject 1 0 "", .create 2 10 "" 0] = true ∧
    totalRequestedQuantity scenarioInflated.reqs = 10 ∧
    ¬ totalRequestedQuantity scenarioInflated.reqs ≤ 5 := by
  decide

/-- C1 (amended): what the code does maintain, on every operation sequence
from a freshly created medicine in which each accept targets a request that
is still `Pending`, is the reservation invariant for PENDING demand alone:
the sum of the quantities of `Pending` requests never exceeds the current
stored quantity.  The `Pending`+`Accepted` sum exceeds the stored field as
soon as a request is accepted, and the quantity-inflation partial-write bug
breaks any bound relative to the original quantity. -/
theorem C1_amended_invariant (q0 expiry : Int) (donor : Nat) (ops : List Op)
    (h1 : 1 ≤ q0) (hsafe : safeRun (freshState q0 expiry donor) ops = true) :
    sumPend (run (freshState q0 expiry donor) ops).reqs ≤
      (run (freshState q0 expiry donor) ops).med.quantity :=
  (inv_run (inv_fresh h1) hsafe).pend_le

theorem C1_amended_invariant_witness :
    (1 : Int) ≤ 10 ∧
    safeRun (freshState 10 100 0) [.create 1 6 "" 0] = true ∧
    sumPend (run (freshState 10 100 0) [.create 1 6 "" 0]).reqs ≤
      (run (freshState 10 100 0) [.create 1 6 "" 0]).med.quantity :=
  ⟨by decide, by decide,
    C1_amended_invariant 10 100 0 [.create 1 6 "" 0] (by decide) (by decide)⟩

/-- C2: FALSE as stated: invoking accept on a request that is already
`Accepted` (status ≠ `Pending`) does not return InvalidTransition — when the
repeated decrement still leaves at least one unit (here 8 − 2 = 6), the
route succeeds and decrements the medicine a second time. -/
theorem C2_counterexample :
    (scenarioSmallAccepted.reqs.find? (fun x => x.id == 1)).map Req.status =
      some RStatus.accepted ∧
    scenarioSmallAccepted.med.quantity = 8 ∧
    (acceptRequestOp scenarioSmallAccepted 1 0 "").resp = none ∧
    (acceptRequestOp scenarioSmallAccepted 1 0 "").db.med.quantity = 6 := by
  decide

/-- C2 (amended): the accept route checks only that the request exists and
that the caller is its donor — never the current status.  Whatever the
status, the request is persisted as `Accepted`; the decrement then persists
exactly when `request.quantity < medicine.quantity`, and otherwise the
clamped zero write is rejected by the schema's `min: 1` validator, so the
route answers 500 with the quantity unchanged but the request still
re-persisted as `Accepted` (a partial write) — in no case an
InvalidTransition error. -/
theorem C2_amended_accept_unconditional (s : St) (rid uid : Nat) (msg : String)
    (r : Req) (hfind : s.reqs.find? (fun x => x.id == rid) = some r)
    (hdon : r.donor = uid) (hq1 : 1 ≤ r.quantity) :
    acceptedVersion r msg ∈ (acceptRequestOp s rid uid msg).db.reqs ∧
    (acceptedVersion r msg).status = .accepted ∧
    (r.quantity < s.med.quantity →
      (acceptRequestOp s rid uid msg).resp = none ∧
      (acceptRequestOp s rid uid msg).db.med.quantity = s.med.quantity - r.quantity) ∧
    (s.med.quantity ≤ r.quantity →
      (acceptRequestOp s rid uid msg).resp = some .validationError ∧
      (acceptRequestOp s rid uid msg).db.med.quantity = s.med.quantity) := by
  have hmem := List.mem_of_find?_eq_some hfind
  have hid : r.id = rid := by simpa using List.find?_some hfind
  refine ⟨?_, rfl, ?_, ?_⟩
  · rcases lt_or_ge r.quantity s.med.quantity with hlt | hge
    · rw [(accept_persists hfind hdon hq1 hlt).2.2]
      exact replaceReq_mem_self _ hmem hid
    · rw [(accept_clamped hfind hdon hq1 hge).2.2]
      exact replaceReq_mem_self _ hmem hid
  · intro hlt
    exact ⟨(accept_persists hfind hdon hq1 hlt).1,
      (accept_persists hfind hdon hq1 hlt).2.1⟩
  · intro hge
    exact ⟨(accept_clamped hfind hdon hq1 hge).1,
      (accept_clamped hfind hdon hq1 hge).2.1⟩

theorem C2_amended_accept_unconditional_witness :
    (acceptRequestOp scenarioSmallAccepted 1 0 "").resp = none ∧
    (acceptRequestOp scenarioSmallAccepted 1 0 "").db.med.quantity =
      scenarioSmallAccepted.med.quantity - 2 :=
  (C2_amended_accept_unconditional scenarioSmallAccepted 1 0 ""
      ⟨1, 1, 0, 2, "", .accepted, some "Request accepted"⟩
      (by decide) (by decide) (by decide)).2.2.1 (by decide)

/-- C3: FALSE as stated: the accept route contains no quantity check.  In a
reachable state (10-unit medicine, 6-unit request accepted, 3-unit request
pending, stored quantity 4), accepting the 3-unit request over-allocates —
its quantity exceeds the remaining quantity excluding it (0) — yet the
route succeeds and decrements 4 to 1; no InsufficientQuantity error. -/
theorem C3_counterexample :
    remainingQuantityExcluding scenarioOversubscribed 2 = 0 ∧
    (scenarioOversubscribed.reqs.find? (fun x => x.id == 2)).map Req.quantity =
      some 3 ∧
    (acceptRequestOp scenarioOversubscribed 2 0 "").resp = none ∧
    (acceptRequestOp scenarioOversubscribed 2 0 "").db.med.quantity = 1 := by
  decide

/-- C3 (amended): the accept route can never answer InsufficientQuantity
(its only error responses are not-found, unauthorized and the
validation 500); and when the claim's precondition holds together with
`request.quantity < medicine.quantity` — strictness is forced by the
`min: 1` validator, which rejects the clamped zero write at equality —
accept succeeds and decreases the stored quantity by exactly
`request.quantity`. -/
theorem C3_amended_exact_decrement :
    (∀ (s : St) (rid uid : Nat) (msg : String),
      (acceptRequestOp s rid uid msg).resp ≠ some Err.insufficientQuantity) ∧
    (∀ (s : St) (rid uid : Nat) (msg : String) (r : Req),
      s.reqs.find? (fun x => x.id == rid) = some r → r.donor = uid →
      1 ≤ r.quantity → r.quantity ≤ remainingQuantityExcluding s rid →
      r.quantity < s.med.quantity →
      (acceptRequestOp s rid uid msg).resp = none ∧
      (acceptRequestOp s rid uid msg).db.med.quantity =
        s.med.quantity - r.quantity) := by
  constructor
  · intro s rid uid msg hcontra
    rcases acceptRequestOp_resp_cases s rid uid msg with h | h | h | h <;>
      simp [h] at hcontra
  · intro s rid uid msg r hfind hdon hq1 hpre hlt
    exact ⟨(accept_persists hfind hdon hq1 hlt).1,
      (accept_persists hfind hdon hq1 hlt).2.1⟩

theorem C3_amended_exact_decrement_witness :
    (acceptRequestOp scenarioOversubscribed 2 0 "").resp ≠
      some Err.insufficientQuantity ∧
    ((acceptRequestOp scenarioPending 1 0 "").resp = none ∧
      (acceptRequestOp scenarioPending 1 0 "").db.med.quantity =
        scenarioPending.med.quantity - 6) :=
  ⟨C3_amended_exact_decrement.1 scenarioOversubscribed 2 0 "",
   C3_amended_exact_decrement.2 scenarioPending 1 0 ""
     ⟨1, 1, 0, 6, "", .pending, none⟩
     (by decide) (by decide) (by decide) (by decide) (by decide)⟩

/-- C4: FALSE as stated: from the reachable state where the 6-unit request
is already accepted against a stored quantity of 4, accepting it again
500s on the `min: 1` validator (quantity stays 4, request re-persisted as
`Accepted`), and the subsequent reject then restores 4 + 6 = 10 — not the
pre-accept value 4. -/
theorem C4_counterexample :
    scenarioAccepted.med.quantity = 4 ∧
    (acceptRequestOp scenarioAccepted 1 0 "").resp = some Err.validationError ∧
    (acceptRequestOp scenarioAccepted 1 0 "").db.med.quantity = 4 ∧
    ((rejectRequestOp (acceptRequestOp scenarioAccepted 1 0 "").db 1 0 "").db.med.quantity)
      = 10 := by
  decide

/-- C4 (amended): accept followed by reject of the now-`Accepted` request
restores the stored quantity exactly, PROVIDED `request.quantity` is
strictly below the stored quantity at accept time.  At or above that bound
the accept's decrement is rejected by the `min: 1` validator while the
request is still marked `Accepted`, so the reject restores a decrement that
never happened and overshoots (the counterexample ends at 10 from 4). -/
theorem C4_amended_roundtrip (s : St) (rid uid : Nat) (m1 m2 : String)
    (r : Req) (hfind : s.reqs.find? (fun x => x.id == rid) = some r)
    (hdon : r.donor = uid) (hq1 : 1 ≤ r.quantity)
    (hlt : r.quantity < s.med.quantity) :
    (acceptRequestOp s rid uid m1).resp = none ∧
    (rejectRequestOp (acceptRequestOp s rid uid m1).db rid uid m2).resp = none ∧
    (rejectRequestOp (acceptRequestOp s rid uid m1).db rid uid m2).db.med.quantity =
      s.med.quantity := by
  have hid : r.id = rid := by simpa using List.find?_some hfind
  obtain ⟨hresp1, hqty1, hreqs1⟩ :=
    @accept_persists s rid uid m1 r hfind hdon hq1 hlt
  have hfind2 : (acceptRequestOp s rid uid m1).db.reqs.find? (fun x => x.id == rid) =
      some (acceptedVersion r m1) := by
    rw [hreqs1, find?_replaceReq _ _ _ (by simp [acceptedVersion, hid]), hfind]
    rfl
  have h2 := @reject_restores (acceptRequestOp s rid uid m1).db rid uid m2
    (acceptedVersion r m1) hfind2
    (by simpa [acceptedVersion] using hdon)
    (by simpa [acceptedVersion] using hq1)
    (by simp [acceptedVersion])
    (by rw [hqty1]; simp only [acceptedVersion]; omega)
  refine ⟨hresp1, h2.1, ?_⟩
  rw [h2.2, hqty1]
  simp only [acceptedVersion]
  omega

theorem C4_amended_roundtrip_witness :
    (acceptRequestOp scenarioPending 1 0 "").resp = none ∧
    (rejectRequestOp (acceptRequestOp scenarioPending 1 0 "").db 1 0 "").resp = none ∧
    ((rejectRequestOp (acceptRequestOp scenarioPending 1 0 "").db 1 0 "").db.med.quantity)
      = scenarioPending.med.quantity :=
  C4_amended_roundtrip scenarioPending 1 0 "" "" ⟨1, 1, 0, 6, "", .pending, none⟩
    (by decide) (by decide) (by decide) (by decide)

/-- C5: FALSE as stated: in the quantity-10 / accept-6 scenario the stored
quantity does become 4, but `remainingQuantity` is 0 (the accepted request
is still counted against the already-decremented quantity), not 4, and
requester B's request for 5 fails with the remaining-is-zero error
("No quantity available"), not with the over-allocation message computed
from a remaining of 4. -/
theorem C5_counterexample :
    remainingQuantity scenarioAccepted.med scenarioAccepted.reqs ≠ 4 ∧
    (createRequestOp scenarioAccepted 2 5 "" 0).resp ≠
      some Err.insufficientQuantity := by
  decide

/-- C5 (amended): medicine with quantity 10; requester 1's request for 6 is
accepted: the stored quantity becomes 4, `remainingQuantity` becomes 0
because the accepted request's 6 units are double-counted, and requester 2's
subsequent request for 5 fails with the no-quantity-available error, leaving
the database untouched. -/
theorem C5_amended_scenario :
    scenarioAccepted.med.quantity = 4 ∧
    remainingQuantity scenarioAccepted.med scenarioAccepted.reqs = 0 ∧
    createRequestOp scenarioAccepted 2 5 "" 0 = ⟨scenarioAccepted, some .noQuantity⟩ := by
  decide

/-- C6: evaluation of the code at the failing input: marking the accepted
6-unit request as failed answers with an error (the schema enum has no
'Failed', so `request.save()` throws and the catch block returns a 500);
nothing is persisted and the medicine quantity is not restored. -/
theorem C6_code_evaluation :
    failRequestOp scenarioAccepted 1 0 "could not meet" =
      ⟨scenarioAccepted, some .validationError⟩ ∧
    step scenarioAccepted (.fail 1 0 "could not meet") = scenarioAccepted := by
  decide

/-- C7: FALSE as stated: creating a request against an expired medicine does
NOT always fail with Expired: the remaining-quantity-zero check runs first,
so when other requests hold all the stock, the error is "No quantity
available", not "This medicine has expired". -/
theorem C7_counterexample :
    scenarioExpiredFull.med.expiry ≤ 10 ∧
    createRequestOp scenarioExpiredFull 2 1 "" 10 =
      ⟨scenarioExpiredFull, some .noQuantity⟩ ∧
    (createRequestOp scenarioExpiredFull 2 1 "" 10).resp ≠ some Err.expired := by
  decide

/-- C7 (amended): creating a request against an expired medicine fails with
the Expired error — leaving the database untouched — whenever the remaining
quantity is non-zero (the no-quantity check precedes the expiry check in the
route), regardless of the requested amount or the requester. -/
theorem C7_amended_expired (s : St) (rq : Nat) (q : Int) (msg : String) (now : Int)
    (hexp : s.med.expiry ≤ now)
    (hrem : remainingQuantity s.med s.reqs ≠ 0) :
    createRequestOp s rq q msg now = ⟨s, some Err.expired⟩ := by
  simp only [createRequestOp]
  rw [if_neg (by simpa [remainingQuantity] using hrem)]
  rw [if_pos hexp]

theorem C7_amended_expired_witness :
    scenarioExpiredEmpty.med.expiry ≤ 10 ∧
    remainingQuantity scenarioExpiredEmpty.med scenarioExpiredEmpty.reqs ≠ 0 ∧
    createRequestOp scenarioExpiredEmpty 2 1 "" 10 =
      ⟨scenarioExpiredEmpty, some Err.expired⟩ :=
  ⟨by decide, by decide,
    C7_amended_expired scenarioExpiredEmpty 2 1 "" 10 (by decide) (by decide)⟩

/-- C10: `'Failed'` is not in the Request schema's status enum; the fail
route's save is therefore always rejected: the operation always returns an
error, a fail step leaves the persisted state unchanged, and every
operation — including the accept route's partial-write path — keeps all
persisted request statuses inside the schema enum
(`Pending/Accepted/Rejected/Completed/Cancelled`). -/
theorem C10_failed_not_in_enum :
    RStatus.failed ∉ requestStatusEnum ∧
    (∀ (s : St) (rid uid : Nat) (reason : String),
      ∃ e, (failRequestOp s rid uid reason).resp = some e) ∧
    (∀ (s : St) (rid uid : Nat) (reason : String),
      step s (.fail rid uid reason) = s) ∧
    (∀ (s : St) (op : Op), statusesValid s → statusesValid (step s op)) :=
  ⟨by decide, failRequestOp_isError, step_fail_id,
    fun _ op h => statusesValid_step op h⟩

theorem C10_failed_not_in_enum_witness :
    (∃ e, (failRequestOp scenarioAccepted 1 0 "went missing").resp = some e) ∧
    step scenarioAccepted (.fail 1 0 "went missing") = scenarioAccepted ∧
    statusesValid (step scenarioAccepted (.accept 1 0 "")) :=
  ⟨C10_failed_not_in_enum.2.1 scenarioAccepted 1 0 "went missing",
   C10_failed_not_in_enum.2.2.1 scenarioAccepted 1 0 "went missing",
   C10_failed_not_in_enum.2.2.2 scenarioAccepted (.accept 1 0 "")
     (by unfold statusesValid; decide)⟩

end MedConnect
